import Mathlib

/-!
Verification of the educational notebooks of this repository
(`2019-09-09-numpy-vectorization-and-broadcasting.ipynb` and
`2021-01-07-pandas-cheatsheet.ipynb`).

Every cell of the notebooks is a direct call into an external array or
table library (NumPy, pandas, scikit-learn).  The embedding below models
1-D NumPy arrays as `List ℚ` and 2-D arrays as `List (List ℚ)` (all the
numeric values appearing in the notebooks are exactly representable, so
rational arithmetic is faithful to what the snippets compute), and models
the library operations the snippets call — `np.linspace`, elementwise
comparison, boolean-mask selection, broadcasting of `+`, `np.mean(axis=1)`,
`np.zeros`, `np.column_stack`, scikit-learn's `fit` input validation and
`pd.merge` — from those libraries' documented semantics, since the
libraries themselves are not part of this repository.
-/

namespace DsBlog

/-- Modelled from the spec: `np.linspace(a, b, num)` (NumPy is not part of
this repository).  With the default `endpoint=True` it returns `num` evenly
spaced samples from `a` to `b`: for `num ≥ 2` the step is
`(b - a) / (num - 1)` and sample `i` is `a + i * step`. -/
def linspace (a b : ℚ) (num : Nat) : List ℚ :=
  if num = 0 then []
  else if num = 1 then [a]
  else (List.range num).map (fun i => a + i * ((b - a) / ((num : ℚ) - 1)))

/-- Elementwise comparison `x > t` of a 1-D array with a scalar, as in the
boolean-masking cell `x > 5`: a boolean array with one entry per element. -/
def gtMask (x : List ℚ) (t : ℚ) : List Bool :=
  x.map (fun v => decide (t < v))

/-- Boolean-mask selection `x[mask]`: the elements of `x` at the `true`
positions of `mask`, kept in their original order. -/
def booleanSelect (x : List ℚ) (mask : List Bool) : List ℚ :=
  (x.zip mask).filterMap (fun p => if p.2 then some p.1 else none)

/-- Conversion of a boolean to a number, as NumPy does when a boolean array
enters an arithmetic operation (`True ↦ 1`, `False ↦ 0`). -/
def boolToRat (b : Bool) : ℚ :=
  if b then 1 else 0

/-- The mask-multiply cell `x * (x > 5)`: the elementwise product of `x`
with the boolean array `x > t` cast to numbers. -/
def maskMultiply (x : List ℚ) (t : ℚ) : List ℚ :=
  List.zipWith (fun a b => a * boolToRat b) x (gtMask x t)

/-! Helper lemmas about the 1-D operations. -/

theorem gtMask_length (x : List ℚ) (t : ℚ) : (gtMask x t).length = x.length := by
  simp [gtMask]

theorem gtMask_getD (x : List ℚ) (t : ℚ) :
    ∀ i : Nat, i < x.length →
      (gtMask x t).getD i false = decide (t < x.getD i 0) := by
  induction x with
  | nil => intro i h; simp at h
  | cons a xs ih =>
      intro i h
      cases i with
      | zero => simp [gtMask]
      | succ n =>
          simp only [gtMask, List.map_cons, List.getD_cons_succ]
          exact ih n (by simpa using h)

theorem maskMultiply_eq_map (x : List ℚ) (t : ℚ) :
    maskMultiply x t = x.map (fun v => if t < v then v else 0) := by
  induction x with
  | nil => rfl
  | cons a xs ih =>
      simp only [maskMultiply, gtMask, List.map_cons, List.zipWith_cons_cons,
        List.map_cons] at *
      refine congrArg₂ List.cons ?_ ih
      by_cases h : t < a <;> simp [boolToRat, h]

theorem linspace_one_ten : linspace 1 10 10 = [1, 2, 3, 4, 5, 6, 7, 8, 9, 10] := by
  simp [linspace, List.range_succ]
  norm_num

/-- C1: for `x = np.linspace(1, 10, 10)` (the values 1.0 through 10.0), the
boolean-mask selection `x[x > 5]` yields exactly the elements greater than 5,
namely `[6., 7., 8., 9., 10.]`, in their original order; the mask itself is
the boolean array shown in the cell. -/
theorem linspace_booleanSelect_gt5 :
    linspace 1 10 10 = [1, 2, 3, 4, 5, 6, 7, 8, 9, 10] ∧
    gtMask (linspace 1 10 10) 5 =
      [false, false, false, false, false, true, true, true, true, true] ∧
    booleanSelect (linspace 1 10 10) (gtMask (linspace 1 10 10) 5) =
      [6, 7, 8, 9, 10] := by
  refine ⟨linspace_one_ten, ?_, ?_⟩ <;> (rw [linspace_one_ten]; decide)

/-- C3: for every 1-D array `x` and scalar threshold `t`, the elementwise
comparison `x > t` produces a boolean array of the same shape (same length)
as `x`, whose entry `i` is `true` exactly when `x[i] > t`. -/
theorem gtMask_shape_and_entries (x : List ℚ) (t : ℚ) :
    (gtMask x t).length = x.length ∧
    ∀ i : Nat, i < x.length → ((gtMask x t).getD i false = true ↔ t < x.getD i 0) := by
  refine ⟨gtMask_length x t, fun i hi => ?_⟩
  rw [gtMask_getD x t i hi]
  exact decide_eq_true_iff

/-- C3 witness: the shape and entry properties of `x > t`, instantiated at
the cell's concrete array `np.linspace(1, 10, 10)` and threshold 5. -/
theorem gtMask_shape_and_entries_witness :
    (gtMask (linspace 1 10 10) 5).length = (linspace 1 10 10).length ∧
    ((gtMask (linspace 1 10 10) 5).getD 2 false = true ↔
      (5 : ℚ) < (linspace 1 10 10).getD 2 0) ∧
    ((gtMask (linspace 1 10 10) 5).getD 7 false = true ↔
      (5 : ℚ) < (linspace 1 10 10).getD 7 0) := by
  refine ⟨(gtMask_shape_and_entries (linspace 1 10 10) 5).1,
    (gtMask_shape_and_entries (linspace 1 10 10) 5).2 2 (by decide),
    (gtMask_shape_and_entries (linspace 1 10 10) 5).2 7 (by decide)⟩

/-- C9: for every 1-D array `x`, the product `x * (x > t)` has the same
length as `x`, with entry `i` equal to `x[i]` when `x[i] > t` and to 0
otherwise; in particular for `x = np.linspace(1, 10, 10)` and `t = 5` it is
`[0., 0., 0., 0., 0., 6., 7., 8., 9., 10.]`. -/
theorem maskMultiply_shape_and_entries (x : List ℚ) (t : ℚ) :
    (maskMultiply x t).length = x.length ∧
    (∀ i : Nat, i < x.length →
      (maskMultiply x t).getD i 0 = if t < x.getD i 0 then x.getD i 0 else 0) ∧
    maskMultiply (linspace 1 10 10) 5 = [0, 0, 0, 0, 0, 6, 7, 8, 9, 10] := by
  refine ⟨?_, ?_, by rw [maskMultiply_eq_map, linspace_one_ten]; decide⟩
  · rw [maskMultiply_eq_map]; simp
  · intro i hi
    rw [maskMultiply_eq_map]
    induction x generalizing i with
    | nil => simp at hi
    | cons a xs ih =>
        cases i with
        | zero => simp
        | succ n =>
            simp only [List.map_cons, List.getD_cons_succ]
            exact ih n (by simpa using hi)

/-- C9 witness: the shape and entry properties of `x * (x > 5)` instantiated
at the cell's concrete array, together with the concrete output. -/
theorem maskMultiply_shape_and_entries_witness :
    (maskMultiply (linspace 1 10 10) 5).length = (linspace 1 10 10).length ∧
    (maskMultiply (linspace 1 10 10) 5).getD 2 0 =
      (if (5 : ℚ) < (linspace 1 10 10).getD 2 0 then (linspace 1 10 10).getD 2 0 else 0) ∧
    maskMultiply (linspace 1 10 10) 5 = [0, 0, 0, 0, 0, 6, 7, 8, 9, 10] := by
  refine ⟨(maskMultiply_shape_and_entries (linspace 1 10 10) 5).1,
    (maskMultiply_shape_and_entries (linspace 1 10 10) 5).2.1 2 (by decide),
    (maskMultiply_shape_and_entries (linspace 1 10 10) 5).2.2⟩

/-! Broadcasting (the cell `x + y[np.newaxis, :]` with `x.shape = (10, 2)`
and `y.shape = (2,)`). -/

/-- Shape of a 2-D array represented as a list of rows. -/
def shape2 (m : List (List ℚ)) : List Nat :=
  [m.length, (m.headD []).length]

/-- Modelled from the spec: NumPy's broadcasting rule for one pair of
dimensions (NumPy is not part of this repository) — two sizes are
compatible when they are equal or one of them is 1, and the broadcast size
is the larger one. -/
def broadcastDim (a b : Nat) : Option Nat :=
  if a = b then some a
  else if a = 1 then some b
  else if b = 1 then some a
  else none

/-- Modelled from the spec: NumPy's broadcasting rule on trailing-aligned
shapes given in reversed (innermost-first) order; a missing leading
dimension is treated as present. -/
def broadcastShapesRev : List Nat → List Nat → Option (List Nat)
  | [], s => some s
  | s, [] => some s
  | a :: s1, b :: s2 =>
      match broadcastDim a b, broadcastShapesRev s1 s2 with
      | some d, some rest => some (d :: rest)
      | _, _ => none

/-- Modelled from the spec: the NumPy broadcast of two shapes — align the
shapes at their trailing dimensions (the shorter one is padded with 1s on
the left) and combine dimension pairs with `broadcastDim`; `none` means the
shapes are incompatible and the operation raises an error. -/
def broadcastShapes (s1 s2 : List Nat) : Option (List Nat) :=
  (broadcastShapesRev s1.reverse s2.reverse).map List.reverse

/-- Broadcast-aware lookup of entry `(i, j)` in a 2-D array: an axis of
size 1 is read at index 0 whatever the requested index. -/
def bcastGet2 (m : List (List ℚ)) (i j : Nat) : ℚ :=
  let r := m.getD (if m.length = 1 then 0 else i) []
  r.getD (if r.length = 1 then 0 else j) 0

/-- Elementwise addition of two 2-D arrays under NumPy broadcasting:
`none` when the shapes are incompatible, otherwise the array of the
broadcast shape whose entry `(i, j)` is the sum of the broadcast-aware
entries of the operands. -/
def add2D (x y : List (List ℚ)) : Option (List (List ℚ)) :=
  match broadcastShapes (shape2 x) (shape2 y) with
  | none => none
  | some s =>
      some ((List.range (s.getD 0 0)).map (fun i =>
        (List.range (s.getD 1 0)).map (fun j => bcastGet2 x i j + bcastGet2 y i j)))

/-- The cell's `y[np.newaxis, :]`: a 1-D array of shape `(k,)` viewed as the
2-D array of shape `(1, k)` with the same single row. -/
def npNewaxisRow (y : List ℚ) : List (List ℚ) :=
  [y]

/-- Addition of a 2-D array and a 1-D array, as in the commented-out
`x + y`: the shapes `(n, m)` and `(k,)` are combined by the trailing-aligned
broadcasting rule, and on success entry `(i, j)` of the result is
`x[i, j] + y[j]` (an axis of size 1 being read at 0). -/
def addMatVec (x : List (List ℚ)) (y : List ℚ) : Option (List (List ℚ)) :=
  match broadcastShapes (shape2 x) [y.length] with
  | none => none
  | some s =>
      some ((List.range (s.getD 0 0)).map (fun i =>
        (List.range (s.getD 1 0)).map (fun j =>
          bcastGet2 x i j + y.getD (if y.length = 1 then 0 else j) 0)))

theorem broadcastDim_one_right (n : Nat) : broadcastDim n 1 = some n := by
  unfold broadcastDim
  by_cases h : n = 1 <;> simp [h]

theorem shape2_of_rect (x : List (List ℚ)) (k : Nat) (hx : 0 < x.length)
    (hrect : ∀ r ∈ x, r.length = k) : shape2 x = [x.length, k] := by
  cases x with
  | nil => simp at hx
  | cons r t => simp [shape2, hrect r (List.mem_cons_self r t)]

theorem broadcastShapes_rect_vec (n k : Nat) :
    broadcastShapes [n, k] [k] = some [n, k] := by
  simp [broadcastShapes, broadcastShapesRev, broadcastDim]

theorem broadcastShapes_rect_row (n k : Nat) :
    broadcastShapes [n, k] [1, k] = some [n, k] := by
  by_cases h : n = 1 <;>
    simp [broadcastShapes, broadcastShapesRev, broadcastDim, h]

theorem getD_bcastIndex (y : List ℚ) (j : Nat) (hj : j < y.length) :
    y.getD (if y.length = 1 then 0 else j) 0 = y[j] := by
  by_cases h : y.length = 1
  · have hj0 : j = 0 := by omega
    subst hj0
    rw [if_pos h]
    exact List.getD_eq_getElem y 0 hj
  · rw [if_neg h]
    exact List.getD_eq_getElem y 0 hj

theorem bcastGet2_rect (x : List (List ℚ)) (k : Nat)
    (hrect : ∀ r ∈ x, r.length = k) (i j : Nat) (hi : i < x.length) (hj : j < k) :
    bcastGet2 x i j = (x[i]).getD j 0 := by
  have hrow : x.getD (if x.length = 1 then 0 else i) [] = x[i] := by
    by_cases h1 : x.length = 1
    · have hi0 : i = 0 := by omega
      subst hi0
      rw [if_pos h1]
      exact List.getD_eq_getElem x [] hi
    · rw [if_neg h1]
      exact List.getD_eq_getElem x [] hi
  have hk : (x[i]).length = k := hrect _ (List.getElem_mem hi)
  simp only [bcastGet2, hrow]
  by_cases h2 : (x[i]).length = 1
  · have hj0 : j = 0 := by omega
    subst hj0
    rw [if_pos h2]
  · rw [if_neg h2]

/-- C2 (amended): for a 2-D array `x` of shape `(n, m)` and a 1-D array `y`
of shape `(m,)` (both non-empty), the direct sum `x + y` already succeeds
under the broadcasting rule — NumPy pads `(m,)` to `(1, m)` on its own, so
the shapes are aligned without an explicit `np.newaxis` — and it adds `y`
elementwise to every row of `x`; `x + y[np.newaxis, :]` likewise succeeds
and agrees with it. -/
theorem addMatVec_broadcast_ok (x : List (List ℚ)) (y : List ℚ)
    (hx : 0 < x.length) (hrect : ∀ r ∈ x, r.length = y.length) :
    addMatVec x y = some (x.map (fun r => List.zipWith (fun a b => a + b) r y)) ∧
    add2D x (npNewaxisRow y) = addMatVec x y := by
  have hshape : shape2 x = [x.length, y.length] := shape2_of_rect x y.length hx hrect
  have hentry : ∀ (i : Nat) (hi : i < x.length),
      (List.range y.length).map
          (fun j => bcastGet2 x i j + y.getD (if y.length = 1 then 0 else j) 0) =
        List.zipWith (fun a b => a + b) (x[i]) y := by
    intro i hi
    have hk : (x[i]).length = y.length := hrect _ (List.getElem_mem hi)
    apply List.ext_getElem
    · simp [hk]
    · intro j h1 h2
      have hj : j < y.length := by simpa using h1
      have hj2 : j < (x[i]).length := by rw [hk]; exact hj
      rw [List.getElem_map, List.getElem_range, List.getElem_zipWith,
        bcastGet2_rect x y.length hrect i j hi hj, getD_bcastIndex y j hj,
        List.getD_eq_getElem _ 0 hj2]
  have hmain : addMatVec x y =
      some (x.map (fun r => List.zipWith (fun a b => a + b) r y)) := by
    unfold addMatVec
    rw [hshape, broadcastShapes_rect_vec]
    simp only [Option.some.injEq, List.getD_cons_zero, List.getD_cons_succ]
    apply List.ext_getElem
    · simp
    · intro i h1 h2
      have hi : i < x.length := by simpa using h1
      rw [List.getElem_map, List.getElem_range, List.getElem_map]
      exact hentry i hi
  refine ⟨hmain, ?_⟩
  have hnew : add2D x (npNewaxisRow y) =
      some (x.map (fun r => List.zipWith (fun a b => a + b) r y)) := by
    unfold add2D npNewaxisRow
    have hshape1 : shape2 [y] = [1, y.length] := by simp [shape2]
    rw [hshape, hshape1, broadcastShapes_rect_row]
    simp only [Option.some.injEq, List.getD_cons_zero, List.getD_cons_succ]
    apply List.ext_getElem
    · simp
    · intro i h1 h2
      have hi : i < x.length := by simpa using h1
      rw [List.getElem_map, List.getElem_range, List.getElem_map]
      have hone : ∀ j, bcastGet2 [y] i j = y.getD (if y.length = 1 then 0 else j) 0 := by
        intro j
        simp [bcastGet2]
      rw [← hentry i hi]
      apply List.ext_getElem
      · simp
      · intro j hj1 hj2
        rw [List.getElem_map, List.getElem_range, List.getElem_map, List.getElem_range, hone j]
  rw [hnew, hmain]

/-- Ten rows of two entries each: a concrete stand-in for the cell's
`x = np.random.randn(10, 2)`. -/
def exampleRows : List (List ℚ) :=
  [[0, 0], [0, 0], [0, 0], [0, 0], [0, 0], [0, 0], [0, 0], [0, 0], [0, 0], [0, 0]]

/-- C2 counterexample: the claim that `x + y` does not work for
`x.shape = (10, 2)` and `y.shape = (2,)`, i.e. that those shapes are not
aligned without an explicit `np.newaxis`, is false: the broadcasting rule
aligns `(10, 2)` with `(2,)` directly, and the direct sum succeeds on a
concrete `(10, 2)` array. -/
theorem addMatVec_no_newaxis_needed :
    broadcastShapes [10, 2] [2] = some [10, 2] ∧
    (addMatVec exampleRows [1, 2]).isSome = true := by
  constructor
  · decide
  · decide

/-- C2 witness: the amended broadcasting statement, instantiated at the
concrete `(10, 2)` array `exampleRows` and `y = [1, 2]`. -/
theorem addMatVec_broadcast_ok_witness :
    addMatVec exampleRows [1, 2] =
      some (exampleRows.map (fun r => List.zipWith (fun a b => a + b) r [1, 2])) ∧
    add2D exampleRows (npNewaxisRow [1, 2]) = addMatVec exampleRows [1, 2] :=
  ⟨(addMatVec_broadcast_ok exampleRows [1, 2] (by decide) (by decide)).1,
   (addMatVec_broadcast_ok exampleRows [1, 2] (by decide) (by decide)).2⟩

/-! The scikit-learn cell: `model.fit(x, y)` with a 1-D feature array, and
the reshape fix `x.reshape(-1, 1)`. -/

/-- A NumPy array of explicit rank: 1-D with a flat list of entries, or
2-D with a list of rows. -/
inductive NpArr where
  | one : List ℚ → NpArr
  | two : List (List ℚ) → NpArr

/-- Number of dimensions of an array, NumPy's `ndim`. -/
def ndim : NpArr → Nat
  | .one _ => 1
  | .two _ => 2

/-- Modelled from the spec: scikit-learn's input validation for the feature
argument of `model.fit` (scikit-learn is not part of this repository) — the
feature array must be 2-dimensional, and a 1-D array raises the
`ValueError` quoted in the cell. -/
def fitValidate (x : NpArr) : Except String Unit :=
  if ndim x = 2 then Except.ok ()
  else Except.error "ValueError: Expected 2D array, got 1D array instead"

/-- Rows of `x.reshape(-1, 1)` for a 1-D array `x`: one single-entry row
per element, in order. -/
def reshapeColRows (x : List ℚ) : List (List ℚ) :=
  x.map (fun v => [v])

/-- The reshape fix of the narrative: `x.reshape(-1, 1)` turns the 1-D
array `x` into a 2-D array with one column. -/
def reshapeCol (x : List ℚ) : NpArr :=
  NpArr.two (reshapeColRows x)

/-- C5: calling `model.fit` with a 1-D feature array raises the
`ValueError` shown in the cell (the snippet has no surrounding handler, so
the error is the snippet's outcome), while `x.reshape(-1, 1)` is valid for
every 1-D array of length `n` — it yields shape `(n, 1)` with the same
elements in order — and `model.fit` accepts the reshaped array. -/
theorem fit_requires_2d (x : List ℚ) :
    fitValidate (NpArr.one x) =
      Except.error "ValueError: Expected 2D array, got 1D array instead" ∧
    (reshapeColRows x).length = x.length ∧
    (∀ r ∈ reshapeColRows x, r.length = 1) ∧
    (reshapeColRows x).flatten = x ∧
    fitValidate (reshapeCol x) = Except.ok () := by
  refine ⟨rfl, by simp [reshapeColRows], ?_, ?_, rfl⟩
  · intro r hr
    simp only [reshapeColRows, List.mem_map] at hr
    obtain ⟨v, _, hv⟩ := hr
    rw [← hv]
    rfl
  · induction x with
    | nil => rfl
    | cons a t ih => simpa [reshapeColRows] using ih

/-- C5 witness: the `fit` validation behaviour instantiated at a concrete
1-D feature array of length 3. -/
theorem fit_requires_2d_witness :
    fitValidate (NpArr.one [3, 5, 7]) =
      Except.error "ValueError: Expected 2D array, got 1D array instead" ∧
    (reshapeColRows [3, 5, 7]).length = ([3, 5, 7] : List ℚ).length ∧
    (reshapeColRows [3, 5, 7]).flatten = [3, 5, 7] ∧
    fitValidate (reshapeCol [3, 5, 7]) = Except.ok () :=
  ⟨(fit_requires_2d [3, 5, 7]).1, (fit_requires_2d [3, 5, 7]).2.1,
   (fit_requires_2d [3, 5, 7]).2.2.2.1, (fit_requires_2d [3, 5, 7]).2.2.2.2⟩

/-! The loop-average cell.  Transcribed statement by statement:

    nx, ny = v.shape
    ave = np.zeros(nx)
    for i in range(nx):
        for j in range(ny):
            ave[i] += v[i, j]

    ave[i] /= ny

Note that in the source the final division is written at column 0, outside
the `for i` loop, so it runs once, with `i` holding its last loop value
`nx - 1`. -/

/-- The loop-average snippet exactly as written in the cell: after the
double loop accumulates row sums, the stray un-indented `ave[i] /= ny`
divides only entry `nx - 1`. -/
def loopAverageSnippet (v : List (List ℚ)) : List ℚ :=
  let nx := v.length
  let ny := (v.headD []).length
  let ave0 := List.replicate nx (0 : ℚ)
  let ave1 := (List.range nx).foldl (fun ave i =>
    (List.range ny).foldl (fun ave2 j =>
      ave2.set i (ave2.getD i 0 + (v.getD i []).getD j 0)) ave) ave0
  ave1.set (nx - 1) (ave1.getD (nx - 1) 0 / (ny : ℚ))

/-- The vectorized cell `np.mean(v, axis=1)`: the list of row means. -/
def npMeanAxis1 (v : List (List ℚ)) : List ℚ :=
  v.map (fun r => r.sum / (r.length : ℚ))

/-- C8: the double-loop snippet is claimed to compute the same per-row
averages as `np.mean(v, axis=1)`; in fact, because the `ave[i] /= ny`
statement sits outside the loop, only the last row is divided.  On
`v = [[2, 2], [2, 2]]` the snippet yields `[4, 2]` while the row means are
`[2, 2]`, so the two disagree. -/
theorem loopAverage_divides_only_last_row :
    loopAverageSnippet [[2, 2], [2, 2]] = [4, 2] ∧
    npMeanAxis1 [[2, 2], [2, 2]] = [2, 2] ∧
    loopAverageSnippet [[2, 2], [2, 2]] ≠ npMeanAxis1 [[2, 2], [2, 2]] := by
  have h1 : loopAverageSnippet [[2, 2], [2, 2]] = [4, 2] := by
    norm_num [loopAverageSnippet, List.range_succ]
    decide
  have h2 : npMeanAxis1 [[2, 2], [2, 2]] = [2, 2] := by
    norm_num [npMeanAxis1]
  refine ⟨h1, h2, ?_⟩
  rw [h1, h2]
  decide

/-! The column-stack cell.  The "long, inefficient way" passes
`(x1.shape, 2)` — a pair whose first component is itself the tuple
`(n,)` — to `np.zeros`, which only accepts integers as dimensions. -/

/-- A dimension argument handed to `np.zeros`: either an integer or a
tuple (as `x1.shape` is). -/
inductive ZerosDim where
  | int : Nat → ZerosDim
  | tup : List Nat → ZerosDim

/-- Modelled from the spec: `np.zeros((d1, d2))` (NumPy is not part of this
repository) — each dimension of the shape must be an integer; a tuple in a
dimension position raises `TypeError`, otherwise the result is the `d1` by
`d2` array of zeros. -/
def npZeros2 : ZerosDim → ZerosDim → Except String (List (List ℚ))
  | ZerosDim.int a, ZerosDim.int b => Except.ok (List.replicate a (List.replicate b 0))
  | _, _ => Except.error "TypeError: only integer dimensions are allowed"

/-- The `.shape` attribute of a 1-D array: the one-element tuple `(n,)`. -/
def shapeAttr (x : List ℚ) : ZerosDim :=
  ZerosDim.tup [x.length]

/-- Column assignment `X[:, j] = c`: entry `j` of each row of `X` is
replaced by the corresponding entry of `c`. -/
def setCol (m : List (List ℚ)) (j : Nat) (c : List ℚ) : List (List ℚ) :=
  List.zipWith (fun row v => row.set j v) m c

/-- The cell's "long, inefficient way" exactly as written:
`X = np.zeros((x1.shape, 2)); X[:, 0] = x1; X[:, 1] = x2`. -/
def longWay (x1 x2 : List ℚ) : Except String (List (List ℚ)) :=
  match npZeros2 (shapeAttr x1) (ZerosDim.int 2) with
  | Except.error e => Except.error e
  | Except.ok X => Except.ok (setCol (setCol X 0 x1) 1 x2)

/-- The intended version of the long way, with the dimension written as the
integer `x1.shape[0]` instead of the tuple `x1.shape`. -/
def longWayFixed (x1 x2 : List ℚ) : Except String (List (List ℚ)) :=
  match npZeros2 (ZerosDim.int x1.length) (ZerosDim.int 2) with
  | Except.error e => Except.error e
  | Except.ok X => Except.ok (setCol (setCol X 0 x1) 1 x2)

/-- The cell's efficient way, `np.column_stack((x1, x2))`. -/
def columnStack (x1 x2 : List ℚ) : List (List ℚ) :=
  List.zipWith (fun a b => [a, b]) x1 x2

theorem longWayFixed_eq_columnStack (x1 x2 : List ℚ) (h : x1.length = x2.length) :
    longWayFixed x1 x2 = Except.ok (columnStack x1 x2) := by
  unfold longWayFixed npZeros2
  simp only
  congr 1
  unfold setCol columnStack
  apply List.ext_getElem
  · simp [h]
  · intro i h1 h2
    have hi1 : i < x1.length := by simp at h1; omega
    have hi2 : i < x2.length := by omega
    rw [List.getElem_zipWith, List.getElem_zipWith, List.getElem_zipWith,
      List.getElem_replicate]
    rfl

/-- C10: the "long, inefficient way" is claimed to succeed and produce the
same `(n, 2)` array as `np.column_stack((x1, x2))`; in fact it always fails,
because `np.zeros((x1.shape, 2))` passes the tuple `x1.shape` as a
dimension, which raises `TypeError`.  On the cell's own data (length-10
arrays, here `x1 = x2 = [0,…,0]`) the snippet errors while the intended
version — `np.zeros((x1.shape[0], 2))` — does equal the column stack. -/
theorem longWay_raises_TypeError :
    (∀ x1 x2 : List ℚ,
      longWay x1 x2 = Except.error "TypeError: only integer dimensions are allowed") ∧
    longWayFixed (List.replicate 10 (0 : ℚ)) (List.replicate 10 (0 : ℚ)) =
      Except.ok (columnStack (List.replicate 10 (0 : ℚ)) (List.replicate 10 (0 : ℚ))) := by
  constructor
  · intro x1 x2
    rfl
  · exact longWayFixed_eq_columnStack _ _ rfl

/-- C10 witness: the `TypeError` of the snippet as written, evaluated at
concrete length-10 inputs. -/
theorem longWay_raises_TypeError_witness :
    longWay (List.replicate 10 (0 : ℚ)) (List.replicate 10 (0 : ℚ)) =
      Except.error "TypeError: only integer dimensions are allowed" :=
  longWay_raises_TypeError.1 (List.replicate 10 (0 : ℚ)) (List.replicate 10 (0 : ℚ))

/-! Termination of the explicit double loop.  The loop is embedded as a
small-step machine: one step is one iteration of the loop body (or the
advance of an exhausted inner loop), and the machine halts when `i`
reaches `nx`. -/

/-- State of the double loop: the loop indices and the accumulator
array. -/
structure LoopSt where
  i : Nat
  j : Nat
  ave : List ℚ
  deriving DecidableEq

/-- One step of the double loop over bounds `nx` and `ny`: if the inner
index is in range the body `ave[i] += v[i, j]` runs and `j` advances;
if the inner loop is exhausted `i` advances; when `i` reaches `nx` the
loop has halted (`none`). -/
def loopStep (v : List (List ℚ)) (nx ny : Nat) (s : LoopSt) : Option LoopSt :=
  if s.i < nx then
    if s.j < ny then
      some ⟨s.i, s.j + 1, s.ave.set s.i (s.ave.getD s.i 0 + (v.getD s.i []).getD s.j 0)⟩
    else
      some ⟨s.i + 1, 0, s.ave⟩
  else none

/-- Run the double loop for a bounded number of steps; a halted machine
stays put. -/
def runSteps (v : List (List ℚ)) (nx ny : Nat) : Nat → LoopSt → LoopSt
  | 0, s => s
  | n + 1, s =>
      match loopStep v nx ny s with
      | none => s
      | some s2 => runSteps v nx ny n s2

theorem runSteps_halted (v : List (List ℚ)) (nx ny : Nat) (s : LoopSt)
    (h : loopStep v nx ny s = none) : ∀ n, runSteps v nx ny n s = s := by
  intro n
  cases n with
  | zero => rfl
  | succ m => simp [runSteps, h]

theorem runSteps_add (v : List (List ℚ)) (nx ny : Nat) :
    ∀ (a b : Nat) (s : LoopSt),
      runSteps v nx ny (a + b) s = runSteps v nx ny b (runSteps v nx ny a s) := by
  intro a
  induction a with
  | zero =>
      intro b s
      rw [Nat.zero_add]
      rfl
  | succ m ih =>
      intro b s
      have hadd : m + 1 + b = (m + b) + 1 := by omega
      rw [hadd]
      cases hstep : loopStep v nx ny s with
      | none => simp [runSteps_halted v nx ny s hstep]
      | some s2 =>
          have h1 : runSteps v nx ny ((m + b) + 1) s = runSteps v nx ny (m + b) s2 := by
            simp [runSteps, hstep]
          have h2 : runSteps v nx ny (m + 1) s = runSteps v nx ny m s2 := by
            simp [runSteps, hstep]
          rw [h1, h2, ih b s2]

theorem runSteps_inner (v : List (List ℚ)) (nx ny : Nat) :
    ∀ (k : Nat) (s : LoopSt), s.i < nx → s.j + k = ny →
      ∃ a : List ℚ, runSteps v nx ny (k + 1) s = ⟨s.i + 1, 0, a⟩ := by
  intro k
  induction k with
  | zero =>
      intro s hi hj
      refine ⟨s.ave, ?_⟩
      have hstep : loopStep v nx ny s = some ⟨s.i + 1, 0, s.ave⟩ := by
        unfold loopStep
        rw [if_pos hi, if_neg (by omega)]
      simp [runSteps, hstep]
  | succ m ih =>
      intro s hi hj
      have hjlt : s.j < ny := by omega
      have hstep : loopStep v nx ny s =
          some ⟨s.i, s.j + 1, s.ave.set s.i (s.ave.getD s.i 0 + (v.getD s.i []).getD s.j 0)⟩ := by
        unfold loopStep
        rw [if_pos hi, if_pos hjlt]
      have hrun : runSteps v nx ny (m + 1 + 1) s =
          runSteps v nx ny (m + 1)
            ⟨s.i, s.j + 1, s.ave.set s.i (s.ave.getD s.i 0 + (v.getD s.i []).getD s.j 0)⟩ := by
        simp [runSteps, hstep]
      obtain ⟨a, ha⟩ := ih ⟨s.i, s.j + 1, _⟩ hi (by simp; omega)
      exact ⟨a, by rw [hrun, ha]⟩

theorem runSteps_outer (v : List (List ℚ)) (nx ny : Nat) :
    ∀ (m : Nat) (s : LoopSt), s.i + m = nx → s.j = 0 →
      ∃ a : List ℚ, runSteps v nx ny (m * (ny + 1)) s = ⟨nx, 0, a⟩ := by
  intro m
  induction m with
  | zero =>
      intro s hi hj
      refine ⟨s.ave, ?_⟩
      have hs : s = ⟨nx, 0, s.ave⟩ := by
        cases s
        simp at hi hj ⊢
        exact ⟨hi, hj⟩
      rw [← hs, Nat.zero_mul]
      rfl
  | succ m ih =>
      intro s hi hj
      have hi' : s.i < nx := by omega
      obtain ⟨a1, ha1⟩ := runSteps_inner v nx ny ny s hi' (by omega)
      have hsplit : (m + 1) * (ny + 1) = (ny + 1) + m * (ny + 1) := by ring
      rw [hsplit, runSteps_add v nx ny (ny + 1) (m * (ny + 1)) s, ha1]
      exact ih ⟨s.i + 1, 0, a1⟩ (by simp; omega) rfl

/-- C7: the explicit double loop of the averaging snippet terminates for
every finite 2-D array `v`: running the loop machine for
`nx * (ny + 1)` steps from the initial state (`i = 0`, `j = 0`,
`ave = np.zeros(nx)`) reaches `i = nx`, where the step function reports the
loop finished (`none`); the bounds `nx` and `ny` are the fixed `v.shape`. -/
theorem loop_terminates (v : List (List ℚ)) :
    (runSteps v v.length (v.headD []).length
        (v.length * ((v.headD []).length + 1))
        ⟨0, 0, List.replicate v.length 0⟩).i = v.length ∧
    loopStep v v.length (v.headD []).length
        (runSteps v v.length (v.headD []).length
          (v.length * ((v.headD []).length + 1))
          ⟨0, 0, List.replicate v.length 0⟩) = none := by
  obtain ⟨a, ha⟩ := runSteps_outer v v.length (v.headD []).length v.length
    ⟨0, 0, List.replicate v.length 0⟩ (by simp) rfl
  rw [ha]
  refine ⟨rfl, ?_⟩
  unfold loopStep
  rw [if_neg (lt_irrefl v.length)]

/-- C7 witness: the double-loop machine halts after the predicted number of
steps on the concrete array `[[1, 2], [3, 4]]` (shape `(2, 2)`, six
steps). -/
theorem loop_terminates_witness :
    (runSteps [[1, 2], [3, 4]] 2 2 6 ⟨0, 0, [0, 0]⟩).i = 2 ∧
    loopStep [[1, 2], [3, 4]] 2 2 (runSteps [[1, 2], [3, 4]] 2 2 6 ⟨0, 0, [0, 0]⟩) = none :=
  loop_terminates [[1, 2], [3, 4]]

/-! The pandas cheatsheet's merge cell, `pd.merge(df1, df2, how='inner')`. -/

/-- A dataframe: named columns and rows of values (one value per column,
in column order). -/
structure DataFrame where
  cols : List String
  rows : List (List Int)

/-- The columns shared by two dataframes, in the order of the first — the
key columns `pd.merge` merges on when no `on=` is given. -/
def commonCols (d1 d2 : DataFrame) : List String :=
  d1.cols.filter (fun c => d2.cols.contains c)

/-- Key of a row: its values in the given key columns, read off through the
dataframe's column order. -/
def keyOf (cols : List String) (common : List String) (r : List Int) : List Int :=
  common.map (fun c => r.getD (cols.indexOf c) 0)

/-- Values of a row of the second dataframe in the columns the first one
does not have — the part `pd.merge` appends to a matching left row. -/
def residualOf (d1cols d2cols : List String) (r2 : List Int) : List Int :=
  ((d2cols.zip r2).filter (fun p => !d1cols.contains p.1)).map Prod.snd

/-- Modelled from the spec: `pd.merge(df1, df2, how='inner')` (pandas is
not part of this repository) — with no `on=` argument the join keys are the
columns common to both dataframes; if there is no common column the call
fails (`pandas.errors.MergeError`, here `none`); otherwise the result pairs
every row of `df1` with every row of `df2` that has the same key values,
keeping all columns of `df1` followed by the non-key columns of `df2`. -/
def mergeInner (d1 d2 : DataFrame) : Option DataFrame :=
  let common := commonCols d1 d2
  if common.isEmpty then none
  else some
    { cols := d1.cols ++ d2.cols.filter (fun c => !d1.cols.contains c),
      rows := d1.rows.flatMap (fun r1 =>
        (d2.rows.filter (fun r2 =>
            decide (keyOf d2.cols common r2 = keyOf d1.cols common r1))).map
          (fun r2 => r1 ++ residualOf d1.cols d2.cols r2)) }

/-- C4: the inner join `pd.merge(df1, df2, how='inner')` requires a key
column present in both inputs — it fails when the dataframes share no
column — and when they do share columns its result rows are exactly the
combinations of a `df1` row and a `df2` row with equal key values; in
particular a `df1` row survives exactly when its key values also appear in
`df2`. -/
theorem mergeInner_spec (d1 d2 : DataFrame) :
    (commonCols d1 d2 = [] → mergeInner d1 d2 = none) ∧
    (commonCols d1 d2 ≠ [] →
      ∃ out, mergeInner d1 d2 = some out ∧
        (∀ row, row ∈ out.rows ↔
          ∃ r1 ∈ d1.rows, ∃ r2 ∈ d2.rows,
            keyOf d2.cols (commonCols d1 d2) r2 = keyOf d1.cols (commonCols d1 d2) r1 ∧
            row = r1 ++ residualOf d1.cols d2.cols r2) ∧
        (∀ r1 ∈ d1.rows,
          ((∃ row ∈ out.rows, ∃ r2 ∈ d2.rows, row = r1 ++ residualOf d1.cols d2.cols r2 ∧
              keyOf d2.cols (commonCols d1 d2) r2 = keyOf d1.cols (commonCols d1 d2) r1) ↔
            ∃ r2 ∈ d2.rows,
              keyOf d2.cols (commonCols d1 d2) r2 = keyOf d1.cols (commonCols d1 d2) r1))) := by
  constructor
  · intro h
    unfold mergeInner
    rw [if_pos (by simp [h])]
  · intro h
    have hne : ¬(commonCols d1 d2).isEmpty = true := by
      simpa [List.isEmpty_iff] using h
    refine ⟨_, by unfold mergeInner; rw [if_neg hne], ?_, ?_⟩
    · intro row
      simp only [List.mem_flatMap, List.mem_map, List.mem_filter, decide_eq_true_iff]
      constructor
      · rintro ⟨r1, hr1, r2, ⟨hr2, hkey⟩, hrow⟩
        exact ⟨r1, hr1, r2, hr2, hkey, hrow.symm⟩
      · rintro ⟨r1, hr1, r2, hr2, hkey, hrow⟩
        exact ⟨r1, hr1, r2, ⟨hr2, hkey⟩, hrow.symm⟩
    · intro r1 hr1
      constructor
      · rintro ⟨row, _, r2, hr2, _, hkey⟩
        exact ⟨r2, hr2, hkey⟩
      · rintro ⟨r2, hr2, hkey⟩
        refine ⟨r1 ++ residualOf d1.cols d2.cols r2, ?_, r2, hr2, rfl, hkey⟩
        simp only [List.mem_flatMap, List.mem_map, List.mem_filter, decide_eq_true_iff]
        exact ⟨r1, hr1, r2, ⟨hr2, hkey⟩, rfl⟩

/-- Dataframes with the shared column `ID`, as in the student examples of
the cheatsheet. -/
def dfLeft : DataFrame :=
  { cols := ["ID", "Grade"], rows := [[1, 10], [2, 20]] }

/-- Second dataframe sharing the `ID` column with `dfLeft`. -/
def dfRight : DataFrame :=
  { cols := ["ID", "School"], rows := [[1, 100], [3, 300]] }

/-- A dataframe sharing no column with `dfLeft`. -/
def dfOther : DataFrame :=
  { cols := ["Subjects"], rows := [[7]] }

/-- C4 witness: the merge contract at concrete dataframes — a join on the
shared `ID` column succeeds, and a merge of dataframes with no common
column fails. -/
theorem mergeInner_spec_witness :
    mergeInner dfLeft dfOther = none ∧
    (mergeInner dfLeft dfRight).isSome = true := by
  constructor
  · exact (mergeInner_spec dfLeft dfOther).1 (by decide)
  · obtain ⟨out, hout, _, _⟩ := (mergeInner_spec dfLeft dfRight).2 (by decide)
    rw [hout]
    rfl

/-! Dataflow between the code cells.  Each code cell of the two notebooks
is transcribed as the set of variable names it assigns (`defines`) and the
set of names it reads (`reads`); Python builtins (`range`, `sorted`,
`list`, `str`, `print`) and lambda parameters are omitted, and a name a
cell both reads and assigns appears in both lists. -/

/-- Variable names assigned and read by one notebook code cell. -/
structure CodeCell where
  defines : List String
  reads : List String
  deriving DecidableEq

/-- The nine code cells of the numpy notebook, in order: double-loop
average, single-loop average, vectorized mean, `partial` mean, broadcasting,
scikit-learn fit, column stack, boolean masking, mask multiply. -/
def numpyCells : List CodeCell :=
  [⟨["nx", "ny", "ave", "i", "j"], ["v", "np", "nx", "ny", "i", "j", "ave"]⟩,
   ⟨["i"], ["nx", "i", "ave", "np", "v", "n"]⟩,
   ⟨["ave"], ["np", "v"]⟩,
   ⟨["partial", "ave_y"], ["partial", "np", "ave_y", "v"]⟩,
   ⟨["x", "y"], ["np", "x", "y"]⟩,
   ⟨["Lasso", "x", "y", "model"], ["np", "x", "Lasso", "model", "y"]⟩,
   ⟨["x1", "x2", "X"], ["np", "x1", "x2", "X"]⟩,
   ⟨["x"], ["np", "x"]⟩,
   ⟨[], ["x"]⟩]

/-- The nineteen code cells of the pandas notebook, in order: imports,
configuration, column re-order, merge, assign, pivot table, multi-index,
melt, binary column, one-hot (commented out), one-hot via `get_dummies`,
duplicates, force-numeric loop, csv export, `isin` filters, `dropna`,
rename, replace, string processing. -/
def pandasCells : List CodeCell :=
  [⟨["pd", "np"], []⟩,
   ⟨[], ["pd"]⟩,
   ⟨["df"], ["df", "FIRST_COLS", "REMAINING_COLS"]⟩,
   ⟨[], ["pd", "df1", "df2"]⟩,
   ⟨[], ["df"]⟩,
   ⟨["df_wide"], ["df"]⟩,
   ⟨[], ["df"]⟩,
   ⟨[], ["pd", "df"]⟩,
   ⟨[], ["df"]⟩,
   ⟨[], []⟩,
   ⟨["dummies", "df_clusters_save"], ["pd", "df_clusters_save", "dummies"]⟩,
   ⟨["duplicates"], ["df", "duplicates", "df_students"]⟩,
   ⟨["col"], ["df", "col", "pd"]⟩,
   ⟨[], ["df"]⟩,
   ⟨[], ["df", "EXCLUDE_SCHOOLS", "INCLUDE_SCHOOLS"]⟩,
   ⟨[], ["df"]⟩,
   ⟨["COLUMN_NAMES"], ["df", "COLUMN_NAMES"]⟩,
   ⟨["SCHOOL_NAMES", "df"], ["df", "SCHOOL_NAMES"]⟩,
   ⟨["df_schools_list", "school_names"], ["df", "df_schools_list", "school_names"]⟩]

/-- Free placeholder names of the numpy notebook: read by some cell, never
assigned by any (they stand for the reader's own data or an assumed
import). -/
def numpyPlaceholders : List String :=
  ["v", "n", "np"]

/-- Free placeholder names of the pandas notebook. -/
def pandasPlaceholders : List String :=
  ["df1", "df2", "FIRST_COLS", "REMAINING_COLS", "df_students",
   "EXCLUDE_SCHOOLS", "INCLUDE_SCHOOLS"]

/-- Scope check over a notebook: walking the cells in order, every name a
cell reads is assigned by the cell itself, by an earlier cell, or belongs
to the free placeholder set. -/
def cellsWellScoped (free : List String) : List String → List CodeCell → Bool
  | _, [] => true
  | defined, c :: rest =>
      c.reads.all (fun u =>
        c.defines.contains u || defined.contains u || free.contains u) &&
      cellsWellScoped free (defined ++ c.defines) rest

/-- C6 counterexample: the claim that each snippet references only
variables it defines itself (up to reuse by the immediately following
snippet), and in particular that no snippet reads a variable that is never
defined by any snippet, is false: the first numpy cell reads `v`, which no
cell of the notebook defines, and the pandas `assign` cell (index 4) reads
`df`, which neither it nor the immediately preceding merge cell (index 3)
defines. -/
theorem snippet_reads_undefined_variable :
    "v" ∈ (numpyCells.getD 0 ⟨[], []⟩).reads ∧
    numpyCells.all (fun c => !c.defines.contains "v") = true ∧
    "df" ∈ (pandasCells.getD 4 ⟨[], []⟩).reads ∧
    (!(pandasCells.getD 4 ⟨[], []⟩).defines.contains "df") = true ∧
    (!(pandasCells.getD 3 ⟨[], []⟩).defines.contains "df") = true := by
  refine ⟨?_, ?_, ?_, ?_, ?_⟩ <;> decide

/-- C6 (amended): every name a snippet reads is assigned by that snippet
itself, by an earlier snippet of the same notebook, or is one of the
notebook's free placeholder variables (`v`, `n`, `np` in the numpy
notebook; `df1`, `df2`, `FIRST_COLS`, `REMAINING_COLS`, `df_students`,
`EXCLUDE_SCHOOLS`, `INCLUDE_SCHOOLS` in the pandas notebook) — names that
stand for the reader's own data or an assumed import and that no snippet
ever defines. -/
theorem snippets_scoped_with_placeholders :
    cellsWellScoped numpyPlaceholders [] numpyCells = true ∧
    cellsWellScoped pandasPlaceholders [] pandasCells = true ∧
    numpyPlaceholders.all
      (fun p => numpyCells.all (fun c => !c.defines.contains p)) = true ∧
    pandasPlaceholders.all
      (fun p => pandasCells.all (fun c => !c.defines.contains p)) = true := by
  refine ⟨?_, ?_, ?_, ?_⟩ <;> decide

end DsBlog
